import Mathlib

/-!
Verification development for prc2bin (src/main.py), a PalmOS PRC resource
extractor.  The Python source is shallowly embedded below: a file is a
`List Nat` of byte values (each < 256 for real inputs), file I/O reads
become `List.take` / `List.drop`, and the fallible decoding functions
return `Except String`.  Python integers are unbounded, so `Nat`/`Int`
model them exactly; the one signed subtraction in the source
(`resources[i+1].offset - res.offset`) is modelled over `Int`.
-/

set_option maxRecDepth 8192

namespace Prc2Bin

/-- Big-endian interpretation of a byte list, as done by
`struct.unpack` with format characters `H` (2 bytes) and `L` (4 bytes). -/
def beNat (bs : List Nat) : Nat :=
  bs.foldl (fun acc b => acc * 256 + b) 0

/-- Embedding of the `PRCHeader` dataclass of src/main.py (78 bytes
serialized, field order of the struct format string `>32sHHLLLLLLLLLLH`). -/
structure PRCHeader where
  name : List Nat
  flags : Nat
  version : Nat
  create_time : Nat
  mod_time : Nat
  backup_time : Nat
  mod_num : Nat
  app_info : Nat
  sort_info : Nat
  type : Nat
  id : Nat
  unique_id_seed : Nat
  next_record_list : Nat
  num_records : Nat
deriving DecidableEq, Repr

/-- Embedding of the `ResourceHeader` dataclass of src/main.py
(10 bytes serialized: 4-byte name, 2-byte id, 4-byte offset). -/
structure ResourceHeader where
  name : List Nat
  id : Nat
  offset : Nat
deriving DecidableEq, Repr

/-- Embedding of `read_prc_header` (src/main.py:143).  `fp.read(78)`
returns `min 78 (file length)` bytes; the function raises `ValueError`
unless exactly 78 bytes were obtained, and otherwise unpacks the header
with the big-endian format `>32sHHLLLLLLLLLLH`. -/
def read_prc_header (file : List Nat) : Except String PRCHeader :=
  let data := file.take 78
  if data.length ≠ 78 then
    .error ("Invalid PRC header: expected 78 bytes, got " ++ Nat.repr data.length)
  else
    .ok {
      name := data.take 32
      flags := beNat ((data.drop 32).take 2)
      version := beNat ((data.drop 34).take 2)
      create_time := beNat ((data.drop 36).take 4)
      mod_time := beNat ((data.drop 40).take 4)
      backup_time := beNat ((data.drop 44).take 4)
      mod_num := beNat ((data.drop 48).take 4)
      app_info := beNat ((data.drop 52).take 4)
      sort_info := beNat ((data.drop 56).take 4)
      type := beNat ((data.drop 60).take 4)
      id := beNat ((data.drop 64).take 4)
      unique_id_seed := beNat ((data.drop 68).take 4)
      next_record_list := beNat ((data.drop 72).take 4)
      num_records := beNat ((data.drop 76).take 2) }

/-- Embedding of `read_resource_header` (src/main.py:157) acting on the
remaining bytes of the file.  `fp.read(4)` for the name never fails (it
may return fewer bytes), while the two `struct.unpack` calls raise
`struct.error` when the read returned fewer bytes than the format needs.
Returns the decoded descriptor and the bytes that follow it. -/
def read_resource_header (bs : List Nat) :
    Except String (ResourceHeader × List Nat) :=
  let name := bs.take 4
  let r1 := bs.drop 4
  if (r1.take 2).length ≠ 2 then
    .error "unpack requires a buffer of 2 bytes"
  else
    let idv := beNat (r1.take 2)
    let r2 := r1.drop 2
    if (r2.take 4).length ≠ 4 then
      .error "unpack requires a buffer of 4 bytes"
    else
      .ok (⟨name, idv, beNat (r2.take 4)⟩, r2.drop 4)

/-- Embedding of the descriptor-reading loop of `extract_resources`
(src/main.py:233): `for _ in range(hdr.num_records):
resources.append(read_resource_header(fp))`. -/
def read_resource_headers (bs : List Nat) : Nat → Except String (List ResourceHeader)
  | 0 => .ok []
  | Nat.succ n =>
    match read_resource_header bs with
    | .error e => .error e
    | .ok (r, rest) =>
      match read_resource_headers rest n with
      | .error e => .error e
      | .ok rs => .ok (r :: rs)

/-- Embedding of the per-byte mapping in `extract_resources`
(src/main.py:256): `chr(b) if 32 <= b <= 126 else '?'`. -/
def printable_char (b : Nat) : Char :=
  if 32 ≤ b ∧ b ≤ 126 then Char.ofNat b else '?'

/-- `name_str` of src/main.py:256: the 4 raw tag bytes with non-printable
bytes replaced by the placeholder character. -/
def name_str (name : List Nat) : String :=
  String.mk (name.map printable_char)

/-- Embedding of the Python format operation `{n:04x}` used at
src/main.py:258: lowercase hexadecimal digits of `n` (via the same
digit-peeling loop as CPython), left-padded with zeros to width 4. -/
def pyHexPad4 (n : Nat) : String :=
  let s := Nat.toDigits 16 n
  String.mk (List.replicate (4 - s.length) '0' ++ s)

/-- The Python format operation `{n:08x}` (used in the messages of
`validate_prc_header`): lowercase hex, zero-padded to width 8. -/
def pyHexPad8 (n : Nat) : String :=
  let s := Nat.toDigits 16 n
  String.mk (List.replicate (8 - s.length) '0' ++ s)

/-- The output file name of a resource (src/main.py:258):
`f"{name_str}{res.id:04x}.bin"`. -/
def resource_filename (r : ResourceHeader) : String :=
  name_str r.name ++ pyHexPad4 r.id ++ ".bin"

/-- Embedding of `fp.seek(pos); fp.read(len)` on a binary file
(src/main.py:273).  CPython `BufferedReader` semantics: size -1 makes
`read` consume the whole rest of the file, any size below -1 raises
`ValueError("read length must be non-negative or -1")`, and a
non-negative size returns at most `len` bytes starting at `pos`. -/
def fp_read (file : List Nat) (pos : Nat) (len : Int) : Except String (List Nat) :=
  if len < -1 then .error "read length must be non-negative or -1"
  else if len < 0 then .ok (file.drop pos)
  else .ok ((file.drop pos).take len.toNat)

/-- One observable event of the extraction loop: either the
"invalid offset, skipping" warning printed for a descriptor, or a
written output file (name and content bytes). -/
inductive ExtractEvent where
  | warn (index : Nat) (offset : Nat)
  | output (filename : String) (data : List Nat)
deriving DecidableEq, Repr

/-- Embedding of the extraction loop of `extract_resources`
(src/main.py:242): for descriptor `i`, skip with a warning when
`res.offset >= file_size`; otherwise compute the (signed) length from
the next descriptor's offset — or from the file size for the last
descriptor — and emit the bytes `fp.read` returns for it.  A
`ValueError` raised by `fp.read` (length below -1) aborts the loop:
the result pairs the events that happened before the abort with the
uncaught error, if any. -/
def extract_loop (file : List Nat) :
    Nat → List ResourceHeader → List ExtractEvent × Option String
  | _, [] => ([], none)
  | i, r :: rest =>
    if file.length ≤ r.offset then
      let t := extract_loop file (i + 1) rest
      (.warn i r.offset :: t.1, t.2)
    else
      let len : Int :=
        match rest with
        | next :: _ => (next.offset : Int) - (r.offset : Int)
        | [] => (file.length : Int) - (r.offset : Int)
      match fp_read file r.offset len with
      | .error e => ([], some e)
      | .ok data =>
        let t := extract_loop file (i + 1) rest
        (.output (resource_filename r) data :: t.1, t.2)

/-- Selects the output events of the loop. -/
def event_output : ExtractEvent → Option (String × List Nat)
  | .output f d => some (f, d)
  | .warn _ _ => none

/-- The resource files written by the extraction loop, in order (those
written before an abort, when the loop aborts). -/
def extract_outputs (file : List Nat) (rs : List ResourceHeader) :
    List (String × List Nat) :=
  (extract_loop file 0 rs).1.filterMap event_output

/-- The complete observable result of `extract_resources`: the loop
events, the `.hdr` artifact (name and bytes), and the return value. -/
structure ExtractResult where
  events : List ExtractEvent
  header_artifact : String × List Nat
  retval : Nat
deriving DecidableEq, Repr

/-- Embedding of `extract_resources` (src/main.py:209) on the whole
file: decode the header (fatal on failure), decode `num_records`
descriptors (fatal on failure), run the extraction loop with
`file_size = ` length of the file — an uncaught `ValueError` from a
read aborts the whole call — then write the first 78 bytes to
`<input name>.hdr` and return `hdr.num_records`. -/
def extract_resources (input_name : String) (file : List Nat) :
    Except String ExtractResult :=
  match read_prc_header file with
  | .error e => .error e
  | .ok hdr =>
    match read_resource_headers (file.drop 78) hdr.num_records with
    | .error e => .error e
    | .ok rs =>
      match extract_loop file 0 rs with
      | (_, some e) => .error e
      | (events, none) =>
        .ok ⟨events, (input_name ++ ".hdr", file.take 78), hdr.num_records⟩

/-- Embedding of `int.to_bytes(4, 'big')` as used on `hdr.type` in
`validate_prc_header` (src/main.py:92); faithful for values below 2^32,
which is every value a parsed header field can hold. -/
def int_to_bytes_be4 (n : Nat) : List Nat :=
  [n / 16777216 % 256, n / 65536 % 256, n / 256 % 256, n % 256]

/-- Embedding of `bytes.decode('ascii', errors='replace')`: bytes below
128 decode to themselves, others become U+FFFD. -/
def ascii_replace (bs : List Nat) : String :=
  String.mk (bs.map fun b => if b < 128 then Char.ofNat b else Char.ofNat 0xFFFD)

/-- Embedding of `validate_prc_header` (src/main.py:70).  Each check
appends one message to the returned list; the first three are guarded by
`cond and strict`, the remaining five live inside `if strict:`. -/
def validate_prc_header (hdr : PRCHeader) (strict : Bool) : List String :=
  (if hdr.flags &&& 1 ≠ 1 ∧ strict = true then
    ["Flags 0x" ++ pyHexPad4 hdr.flags ++
      " doesn\x27t have 0x01 bit set (not a PRC executable?)"] else []) ++
  (if hdr.version ≠ 1 ∧ strict = true then
    ["Version 0x" ++ pyHexPad4 hdr.version ++ " is not 0x01"] else []) ++
  (if ascii_replace (int_to_bytes_be4 hdr.type) ≠ "appl" ∧ strict = true then
    ["Type \x27" ++ ascii_replace (int_to_bytes_be4 hdr.type) ++
      "\x27 is not \x27appl\x27 (not an application?)"] else []) ++
  (if strict = true ∧ hdr.mod_num ≠ 0 then
    ["mod_num should be 0, got " ++ Nat.repr hdr.mod_num] else []) ++
  (if strict = true ∧ hdr.app_info ≠ 0 then
    ["app_info should be 0, got 0x" ++ pyHexPad8 hdr.app_info] else []) ++
  (if strict = true ∧ hdr.sort_info ≠ 0 then
    ["sort_info should be 0, got 0x" ++ pyHexPad8 hdr.sort_info] else []) ++
  (if strict = true ∧ hdr.unique_id_seed ≠ 0 then
    ["unique_id_seed should be 0, got 0x" ++ pyHexPad8 hdr.unique_id_seed] else []) ++
  (if strict = true ∧ hdr.next_record_list ≠ 0 then
    ["next_record_list should be 0, got 0x" ++ pyHexPad8 hdr.next_record_list] else [])

/-- All descriptor offsets lie strictly inside the file (no descriptor
is skipped by the loop's offset validation). -/
def offsets_in_file (L : Nat) (rs : List ResourceHeader) : Bool :=
  rs.all fun r => decide (r.offset < L)

/-- Adjacent descriptor offsets are non-decreasing — the storage-order
assumption under which the gap-based length computation is meaningful. -/
def offsets_sorted : List ResourceHeader → Bool
  | r :: next :: rest => decide (r.offset ≤ next.offset) && offsets_sorted (next :: rest)
  | _ => true

/-- The segmentation the spec describes for a valid directory: each
descriptor yields exactly the source slice from its `data_offset` up to
the next descriptor's `data_offset` (file end for the last one). -/
def valid_segments (file : List Nat) : List ResourceHeader → List (String × List Nat)
  | [] => []
  | [r] => [(resource_filename r, (file.drop r.offset).take (file.length - r.offset))]
  | r :: next :: rest =>
    (resource_filename r, (file.drop r.offset).take (next.offset - r.offset)) ::
      valid_segments file (next :: rest)

/-- The spec's per-descriptor length formula, positionally: the offset
gap to the next descriptor, and `file_length - data_offset` for the
last descriptor. -/
def lengths_spec (L : Nat) : List ResourceHeader → List Nat
  | [] => []
  | [r] => [L - r.offset]
  | r :: next :: rest => (next.offset - r.offset) :: lengths_spec L (next :: rest)

/-- The identifier-derivation rule as the spec words it: each of the 4
raw tag bytes mapped to its ASCII character when it lies in 32..126 and
to the placeholder otherwise, followed by the id rendered as exactly 4
lowercase hexadecimal digits. -/
def spec_identifier (tag : List Nat) (idv : Nat) : String :=
  String.mk (tag.map fun b => if 32 ≤ b ∧ b ≤ 126 then Char.ofNat b else '?') ++
  String.mk [Nat.digitChar (idv / 4096 % 16), Nat.digitChar (idv / 256 % 16),
    Nat.digitChar (idv / 16 % 16), Nat.digitChar (idv % 16)]

/-- A concrete input for the C9 witness: header declaring one record,
whose single descriptor has offset 0xffffffff, far past the 88-byte
file, so the loop skips it with a warning. -/
def fileC9 : List Nat :=
  List.replicate 76 0 ++ [0, 1] ++ [65, 66, 67, 68, 0, 5, 255, 255, 255, 255]

/-- A concrete input exhibiting the C5 divergence: a 112-byte file with
three descriptors — the first at the invalid offset 0xffffffff, then
two in-bounds descriptors at out-of-order offsets 100 and 10, so the
second descriptor's computed length is 10 - 100 = -90 and its
`fp.read(-90)` raises `ValueError`. -/
def fileC5 : List Nat :=
  List.replicate 76 0 ++ [0, 3] ++
  [65, 65, 65, 65, 0, 0, 255, 255, 255, 255] ++
  [66, 66, 66, 66, 0, 1, 0, 0, 0, 100] ++
  [67, 67, 67, 67, 0, 2, 0, 0, 0, 10] ++
  [1, 2, 3, 4]

/-- A concrete input exhibiting the C1 divergence: a 110-byte file whose
two descriptors are out of offset order (100 then 99), both in bounds,
so the first descriptor's computed length is 99 - 100 = -1. -/
def fileC1 : List Nat :=
  List.replicate 76 0 ++ [0, 2] ++
  [65, 65, 65, 65, 0, 0, 0, 0, 0, 100] ++
  [66, 66, 66, 66, 0, 1, 0, 0, 0, 99] ++
  [10, 11, 12, 13, 14, 15, 16, 17, 18, 19, 20, 21]

/-! ## Helper lemmas -/

lemma fp_read_nonneg (file : List Nat) (pos a b : Nat) (h : b ≤ a) :
    fp_read file pos ((a : Int) - (b : Int)) =
      Except.ok ((file.drop pos).take (a - b)) := by
  unfold fp_read
  rw [if_neg (by omega), if_neg (by omega)]
  congr 2
  omega

lemma filterMap_output (l : List (String × List Nat)) :
    (l.map fun p => ExtractEvent.output p.1 p.2).filterMap event_output = l := by
  induction l with
  | nil => rfl
  | cons p t ih => simp [event_output, ih]

lemma extract_loop_last_ok (file : List Nat) (i : Nat) (r : ResourceHeader)
    (data : List Nat) (hnn : ¬ file.length ≤ r.offset)
    (hread : fp_read file r.offset ((file.length : Int) - (r.offset : Int)) =
      Except.ok data) :
    extract_loop file i [r] =
      ([ExtractEvent.output (resource_filename r) data], none) := by
  simp [extract_loop, hnn, hread]

lemma extract_loop_pair_ok (file : List Nat) (i : Nat) (r next : ResourceHeader)
    (rest2 : List ResourceHeader) (data : List Nat)
    (hnn : ¬ file.length ≤ r.offset)
    (hread : fp_read file r.offset ((next.offset : Int) - (r.offset : Int)) =
      Except.ok data) :
    extract_loop file i (r :: next :: rest2) =
      (ExtractEvent.output (resource_filename r) data ::
          (extract_loop file (i + 1) (next :: rest2)).1,
        (extract_loop file (i + 1) (next :: rest2)).2) := by
  simp [extract_loop, hnn, hread]

lemma extract_loop_valid (file : List Nat) :
    ∀ (rs : List ResourceHeader) (i : Nat),
      offsets_in_file file.length rs = true →
      offsets_sorted rs = true →
      extract_loop file i rs =
        ((valid_segments file rs).map fun p => ExtractEvent.output p.1 p.2, none) := by
  intro rs
  induction rs with
  | nil => intro i _ _; rfl
  | cons r rest ih =>
    intro i hin hs
    have hin' : r.offset < file.length ∧ offsets_in_file file.length rest = true := by
      simpa [offsets_in_file, Bool.and_eq_true, decide_eq_true_eq] using hin
    have hnn : ¬ file.length ≤ r.offset := by omega
    cases rest with
    | nil =>
      rw [extract_loop_last_ok file i r _ hnn
        (fp_read_nonneg file r.offset file.length r.offset (Nat.le_of_lt hin'.1))]
      rfl
    | cons next rest2 =>
      simp only [offsets_sorted, Bool.and_eq_true, decide_eq_true_eq] at hs
      rw [extract_loop_pair_ok file i r next rest2 _ hnn
        (fp_read_nonneg file r.offset next.offset r.offset hs.1),
        ih (i + 1) hin'.2 hs.2]
      rfl

lemma valid_segments_map_len (file : List Nat) :
    ∀ rs : List ResourceHeader, offsets_in_file file.length rs = true →
      (valid_segments file rs).map (fun p => p.2.length) = lengths_spec file.length rs := by
  intro rs
  induction rs with
  | nil => intro _; rfl
  | cons r rest ih =>
    intro hin
    have hin' : r.offset < file.length ∧ offsets_in_file file.length rest = true := by
      simpa [offsets_in_file, Bool.and_eq_true, decide_eq_true_eq] using hin
    cases rest with
    | nil =>
      simp [valid_segments, lengths_spec, List.length_take, List.length_drop]
    | cons next rest2 =>
      have hrs : offsets_in_file file.length (next :: rest2) = true := hin'.2
      have hnext : next.offset < file.length := by
        have h := hrs
        simp only [offsets_in_file, List.all_cons, Bool.and_eq_true,
          decide_eq_true_eq] at h
        exact h.1
      simp only [valid_segments, lengths_spec, List.map_cons, List.length_take,
        List.length_drop, ih hrs, List.cons.injEq, and_true]
      omega

lemma lengths_spec_sum (L : Nat) :
    ∀ (rest : List ResourceHeader) (r0 : ResourceHeader),
      offsets_in_file L (r0 :: rest) = true →
      offsets_sorted (r0 :: rest) = true →
      (lengths_spec L (r0 :: rest)).sum = L - r0.offset := by
  intro rest
  induction rest with
  | nil => intro r0 _ _; simp [lengths_spec]
  | cons next rest2 ih =>
    intro r0 hin hs
    have hin' : r0.offset < L ∧ offsets_in_file L (next :: rest2) = true := by
      simpa [offsets_in_file, Bool.and_eq_true, decide_eq_true_eq] using hin
    simp only [offsets_sorted, Bool.and_eq_true, decide_eq_true_eq] at hs
    have hrec := ih next hin'.2 hs.2
    simp only [lengths_spec, List.sum_cons, hrec]
    have h1 : r0.offset ≤ next.offset := hs.1
    have h2 : next.offset < L := by
      have h := hin'.2
      simp only [offsets_in_file, List.all_cons, Bool.and_eq_true,
        decide_eq_true_eq] at h
      exact h.1
    omega

lemma extract_outputs_valid (file : List Nat) (rs : List ResourceHeader)
    (hin : offsets_in_file file.length rs = true)
    (hs : offsets_sorted rs = true) :
    extract_outputs file rs = valid_segments file rs := by
  unfold extract_outputs
  rw [extract_loop_valid file rs 0 hin hs]
  exact filterMap_output _

lemma toDigitsCore16_one (fuel n : Nat) (ds : List Char) (h : n < 16)
    (hf : 1 ≤ fuel) :
    Nat.toDigitsCore 16 fuel n ds = Nat.digitChar n :: ds := by
  cases fuel with
  | zero => omega
  | succ f =>
    simp [Nat.toDigitsCore, Nat.div_eq_of_lt h, Nat.mod_eq_of_lt h]

lemma toDigitsCore16_two (fuel n : Nat) (ds : List Char) (h1 : 16 ≤ n)
    (h2 : n < 256) (hf : 2 ≤ fuel) :
    Nat.toDigitsCore 16 fuel n ds =
      Nat.digitChar (n / 16) :: Nat.digitChar (n % 16) :: ds := by
  cases fuel with
  | zero => omega
  | succ f =>
    have hne : ¬ n / 16 = 0 := by omega
    simp only [Nat.toDigitsCore, hne, if_false]
    rw [toDigitsCore16_one f (n / 16) _ (by omega) (by omega)]

lemma toDigitsCore16_three (fuel n : Nat) (ds : List Char) (h1 : 256 ≤ n)
    (h2 : n < 4096) (hf : 3 ≤ fuel) :
    Nat.toDigitsCore 16 fuel n ds =
      Nat.digitChar (n / 256) :: Nat.digitChar (n / 16 % 16) ::
        Nat.digitChar (n % 16) :: ds := by
  cases fuel with
  | zero => omega
  | succ f =>
    have hne : ¬ n / 16 = 0 := by omega
    simp only [Nat.toDigitsCore, hne, if_false]
    rw [toDigitsCore16_two f (n / 16) _ (by omega) (by omega) (by omega)]
    have e1 : n / 16 / 16 = n / 256 := by omega
    rw [e1]

lemma toDigitsCore16_four (fuel n : Nat) (ds : List Char) (h1 : 4096 ≤ n)
    (h2 : n < 65536) (hf : 4 ≤ fuel) :
    Nat.toDigitsCore 16 fuel n ds =
      Nat.digitChar (n / 4096) :: Nat.digitChar (n / 256 % 16) ::
        Nat.digitChar (n / 16 % 16) :: Nat.digitChar (n % 16) :: ds := by
  cases fuel with
  | zero => omega
  | succ f =>
    have hne : ¬ n / 16 = 0 := by omega
    simp only [Nat.toDigitsCore, hne, if_false]
    rw [toDigitsCore16_three f (n / 16) _ (by omega) (by omega) (by omega)]
    have e1 : n / 16 / 256 = n / 4096 := by omega
    have e2 : n / 16 / 16 % 16 = n / 256 % 16 := by omega
    rw [e1, e2]

lemma pyHexPad4_eq_digits (n : Nat) (h : n < 65536) :
    pyHexPad4 n = String.mk [Nat.digitChar (n / 4096 % 16),
      Nat.digitChar (n / 256 % 16), Nat.digitChar (n / 16 % 16),
      Nat.digitChar (n % 16)] := by
  simp only [pyHexPad4, Nat.toDigits]
  by_cases h1 : n < 16
  · rw [toDigitsCore16_one (n + 1) n [] h1 (by omega)]
    have e1 : n / 4096 % 16 = 0 := by omega
    have e2 : n / 256 % 16 = 0 := by omega
    have e3 : n / 16 % 16 = 0 := by omega
    have e4 : n % 16 = n := by omega
    rw [e1, e2, e3, e4]
    rfl
  · by_cases h2 : n < 256
    · rw [toDigitsCore16_two (n + 1) n [] (by omega) h2 (by omega)]
      have e1 : n / 4096 % 16 = 0 := by omega
      have e2 : n / 256 % 16 = 0 := by omega
      have e3 : n / 16 % 16 = n / 16 := by omega
      rw [e1, e2, e3]
      rfl
    · by_cases h3 : n < 4096
      · rw [toDigitsCore16_three (n + 1) n [] (by omega) h3 (by omega)]
        have e1 : n / 4096 % 16 = 0 := by omega
        have e2 : n / 256 % 16 = n / 256 := by omega
        rw [e1, e2]
        rfl
      · rw [toDigitsCore16_four (n + 1) n [] (by omega) h (by omega)]
        have e1 : n / 4096 % 16 = n / 4096 := by omega
        rw [e1]
        rfl

lemma read_prc_header_ok_length {file : List Nat} {hdr : PRCHeader}
    (h : read_prc_header file = Except.ok hdr) : (file.take 78).length = 78 := by
  by_cases hlen : 78 ≤ file.length
  · rw [List.length_take]; omega
  · exfalso
    have hl : (file.take 78).length = file.length := by
      rw [List.length_take]; omega
    have he : read_prc_header file =
        Except.error ("Invalid PRC header: expected 78 bytes, got " ++
          Nat.repr file.length) := by
      simp [read_prc_header, hl, show file.length ≠ 78 by omega]
    rw [he] at h
    simp at h

/-! ## Claims -/

/-- Claim C6: for every input shorter than 78 bytes, the extractor fails
with the malformed-header error (raised by `read_prc_header` before any
directory entry is read — in this embedding the error short-circuits the
whole of `extract_resources`) and produces no output artifacts. -/
theorem c6_truncated_input_rejected (input_name : String) (file : List Nat)
    (h : file.length < 78) :
    extract_resources input_name file =
      Except.error ("Invalid PRC header: expected 78 bytes, got " ++
        Nat.repr file.length) := by
  have hl : (file.take 78).length = file.length := by
    rw [List.length_take]; omega
  simp [extract_resources, read_prc_header, hl, show file.length ≠ 78 by omega]

/-- Witness for C6 at the empty input. -/
theorem c6_truncated_input_rejected_witness :
    extract_resources "a.prc" ([] : List Nat) =
      Except.error "Invalid PRC header: expected 78 bytes, got 0" := by
  have h := c6_truncated_input_rejected "a.prc" [] (by decide)
  exact h

/-- Claim C7: whenever `extract_resources` succeeds, the `.hdr` output
artifact is byte-identical to the first 78 bytes of the input (the
`take 78` prefix, which success guarantees has full length 78). -/
theorem c7_header_copy_fidelity (input_name : String) (file : List Nat)
    (res : ExtractResult)
    (h : extract_resources input_name file = Except.ok res) :
    res.header_artifact = (input_name ++ ".hdr", file.take 78) ∧
      (file.take 78).length = 78 := by
  cases hp : read_prc_header file with
  | error e => simp [extract_resources, hp] at h
  | ok hdr =>
    cases hq : read_resource_headers (file.drop 78) hdr.num_records with
    | error e => simp [extract_resources, hp, hq] at h
    | ok rs =>
      cases hl : extract_loop file 0 rs with
      | mk evs err =>
        cases err with
        | some e => simp [extract_resources, hp, hq, hl] at h
        | none =>
          simp only [extract_resources, hp, hq, hl, Except.ok.injEq] at h
          subst h
          exact ⟨rfl, read_prc_header_ok_length hp⟩

/-- Witness for C7 on a concrete 78-byte input. -/
theorem c7_header_copy_fidelity_witness :
    (⟨[], ("z.prc" ++ ".hdr", (List.replicate 78 0).take 78), 0⟩ :
        ExtractResult).header_artifact =
      ("z.prc" ++ ".hdr", (List.replicate (78 : Nat) (0 : Nat)).take 78) ∧
      ((List.replicate (78 : Nat) (0 : Nat)).take 78).length = 78 :=
  c7_header_copy_fidelity "z.prc" (List.replicate 78 0) _ rfl

/-- Claim C9: whenever `extract_resources` succeeds, its return value is
the header's `num_records`, independent of how many descriptors the loop
skipped as invalid. -/
theorem c9_returns_num_records (input_name : String) (file : List Nat)
    (res : ExtractResult) (hdr : PRCHeader)
    (h1 : extract_resources input_name file = Except.ok res)
    (h2 : read_prc_header file = Except.ok hdr) :
    res.retval = hdr.num_records := by
  cases hq : read_resource_headers (file.drop 78) hdr.num_records with
  | error e => simp [extract_resources, h2, hq] at h1
  | ok rs =>
    cases hl : extract_loop file 0 rs with
    | mk evs err =>
      cases err with
      | some e => simp [extract_resources, h2, hq, hl] at h1
      | none =>
        simp only [extract_resources, h2, hq, hl, Except.ok.injEq] at h1
        subst h1
        rfl

/-- Witness for C9: the skipped descriptor still leaves the return value
at `num_records = 1`. -/
theorem c9_returns_num_records_witness :
    (⟨[ExtractEvent.warn 0 4294967295], ("p.prc" ++ ".hdr", fileC9.take 78), 1⟩ :
        ExtractResult).retval =
      (⟨List.replicate 32 0, 0, 0, 0, 0, 0, 0, 0, 0, 0, 0, 0, 0, 1⟩ :
        PRCHeader).num_records :=
  c9_returns_num_records "p.prc" fileC9 _ _ rfl rfl

/-- Claim C10: an input that decodes with `num_records = 0` produces no
loop events at all — no per-resource files and no warnings — only the
`.hdr` artifact, and the function returns 0. -/
theorem c10_zero_records (input_name : String) (file : List Nat)
    (hdr : PRCHeader) (h1 : read_prc_header file = Except.ok hdr)
    (h2 : hdr.num_records = 0) :
    extract_resources input_name file =
      Except.ok ⟨[], (input_name ++ ".hdr", file.take 78), 0⟩ := by
  simp [extract_resources, h1, h2, read_resource_headers, extract_loop]

/-- Witness for C10 on the all-zero 78-byte input. -/
theorem c10_zero_records_witness :
    extract_resources "q.prc" (List.replicate 78 0) =
      Except.ok ⟨[], ("q.prc" ++ ".hdr", (List.replicate 78 0).take 78), 0⟩ :=
  c10_zero_records "q.prc" (List.replicate 78 0)
    ⟨List.replicate 32 0, 0, 0, 0, 0, 0, 0, 0, 0, 0, 0, 0, 0, 0⟩ rfl rfl

/-- Claim C5 (code bug, behavior at the failing input): on `fileC5` the
invalid-offset descriptor 0 is indeed skipped with a warning, but the
run then aborts: descriptor 1 (valid offset 100) gets computed length
10 - 100 = -90 and `fp.read(-90)` raises `ValueError`, so neither
descriptor 1 nor descriptor 2 — whose offset 10 is valid — is ever
extracted, and `extract_resources` fails instead of completing,
contradicting the claim that remaining valid descriptors are still
extracted and the run is not aborted. -/
theorem c5_abort_after_skip :
    extract_resources "v.prc" fileC5 =
      Except.error "read length must be non-negative or -1" ∧
    extract_loop fileC5 0
        [⟨[65, 65, 65, 65], 0, 4294967295⟩, ⟨[66, 66, 66, 66], 1, 100⟩,
         ⟨[67, 67, 67, 67], 2, 10⟩] =
      ([ExtractEvent.warn 0 4294967295],
        some "read length must be non-negative or -1") :=
  ⟨rfl, rfl⟩

/-- C2 counterexample: with `strict = False` no advisory check is active
at all — `validate_prc_header` returns no warning for any header — so
there is no header value for which non-strict validation warns. -/
theorem c2_nonstrict_never_warns :
    ¬ ∃ hdr : PRCHeader, validate_prc_header hdr false ≠ [] := by
  rintro ⟨hdr, h⟩
  exact h (by simp [validate_prc_header])

/-- Claim C2 (amended): advisory validation never blocks extraction (it
only returns a list of messages, and `extract_resources` never consults
it); with `strict = false` it reports no warnings at all, and with
`strict = true` each of the eight advisory checks (flag bit 0, version,
type tag, and the five must-be-zero fields) contributes exactly one
warning when its condition is violated. -/
theorem c2_strict_warning_count (hdr : PRCHeader) :
    validate_prc_header hdr false = [] ∧
    (validate_prc_header hdr true).length =
      ((if hdr.flags &&& 1 ≠ 1 then 1 else 0) +
       (if hdr.version ≠ 1 then 1 else 0) +
       (if ascii_replace (int_to_bytes_be4 hdr.type) ≠ "appl" then 1 else 0) +
       (if hdr.mod_num ≠ 0 then 1 else 0) +
       (if hdr.app_info ≠ 0 then 1 else 0) +
       (if hdr.sort_info ≠ 0 then 1 else 0) +
       (if hdr.unique_id_seed ≠ 0 then 1 else 0) +
       (if hdr.next_record_list ≠ 0 then 1 else 0)) := by
  constructor
  · simp [validate_prc_header]
  · simp only [validate_prc_header, eq_self_iff_true, and_true, true_and,
      List.length_append]
    split_ifs <;> simp

/-- Claim C1 (code bug, behavior at the failing input): on `fileC1` the
first descriptor's length comes out as 99 - 100 = -1 and the code does
NOT skip it — `fp.read(-1)` reads everything from offset 100 to end of
file, so the loop emits a 10-byte output for the descriptor and no
warning, contradicting the mandated skip-and-warn guard. -/
theorem c1_negative_length_huge_read :
    extract_resources "t.prc" fileC1 =
      Except.ok
        ⟨[ExtractEvent.output "AAAA0000.bin"
            [12, 13, 14, 15, 16, 17, 18, 19, 20, 21],
          ExtractEvent.output "BBBB0001.bin"
            [11, 12, 13, 14, 15, 16, 17, 18, 19, 20, 21]],
         ("t.prc" ++ ".hdr", fileC1.take 78), 2⟩ := by
  rfl

/-- Claim C3: for a non-empty directory whose offsets are non-decreasing
and all inside the file — the spec's notion of a valid input, under
which no descriptor is skipped and no gap arises — the extracted
outputs are exactly the source slices `[data_offset, data_offset +
length)`, and the extracted lengths sum to `file_length -
descriptor[0].data_offset`. -/
theorem c3_round_trip_segmentation (file : List Nat) (r0 : ResourceHeader)
    (rest : List ResourceHeader)
    (hin : offsets_in_file file.length (r0 :: rest) = true)
    (hs : offsets_sorted (r0 :: rest) = true) :
    extract_outputs file (r0 :: rest) = valid_segments file (r0 :: rest) ∧
    ((extract_outputs file (r0 :: rest)).map fun p => p.2.length).sum =
      file.length - r0.offset := by
  have h1 := extract_outputs_valid file (r0 :: rest) hin hs
  refine ⟨h1, ?_⟩
  rw [h1, valid_segments_map_len file (r0 :: rest) hin,
    lengths_spec_sum file.length rest r0 hin hs]

/-- Witness for C3 on a 100-byte file with descriptors at offsets
10 and 60: the segment sum is 100 - 10 = 90. -/
theorem c3_round_trip_segmentation_witness :
    extract_outputs (List.replicate 100 7)
        ((⟨[97, 97, 97, 97], 0, 10⟩ : ResourceHeader) :: [⟨[98, 98, 98, 98], 1, 60⟩]) =
      valid_segments (List.replicate 100 7)
        ((⟨[97, 97, 97, 97], 0, 10⟩ : ResourceHeader) :: [⟨[98, 98, 98, 98], 1, 60⟩]) ∧
    ((extract_outputs (List.replicate 100 7)
        ((⟨[97, 97, 97, 97], 0, 10⟩ : ResourceHeader) :: [⟨[98, 98, 98, 98], 1, 60⟩])).map
      fun p => p.2.length).sum =
      (List.replicate 100 7 : List Nat).length -
        (⟨[97, 97, 97, 97], 0, 10⟩ : ResourceHeader).offset :=
  c3_round_trip_segmentation (List.replicate 100 7) ⟨[97, 97, 97, 97], 0, 10⟩
    [⟨[98, 98, 98, 98], 1, 60⟩] (by decide) (by decide)

/-- Claim C4: under the same validity assumptions, the extracted byte
count of descriptor `i` is `descriptor[i+1].data_offset -
descriptor[i].data_offset` for every non-last `i` and `file_length -
descriptor[i].data_offset` for the last one (the `lengths_spec`
list states exactly this formula positionally). -/
theorem c4_length_formula (file : List Nat) (r0 : ResourceHeader)
    (rest : List ResourceHeader)
    (hin : offsets_in_file file.length (r0 :: rest) = true)
    (hs : offsets_sorted (r0 :: rest) = true) :
    (extract_outputs file (r0 :: rest)).map (fun p => p.2.length) =
      lengths_spec file.length (r0 :: rest) := by
  rw [extract_outputs_valid file (r0 :: rest) hin hs,
    valid_segments_map_len file (r0 :: rest) hin]

/-- Witness for C4, the spec's own example: descriptors at offsets
[100, 150, 400] in a 500-byte file extract lengths [50, 250, 100]. -/
theorem c4_length_formula_witness :
    (extract_outputs (List.replicate 500 3)
        ((⟨[99, 99, 99, 99], 0, 100⟩ : ResourceHeader) ::
          [⟨[99, 99, 99, 99], 1, 150⟩, ⟨[99, 99, 99, 99], 2, 400⟩])).map
      (fun p => p.2.length) = [50, 250, 100] := by
  have h := c4_length_formula (List.replicate 500 3) ⟨[99, 99, 99, 99], 0, 100⟩
    [⟨[99, 99, 99, 99], 1, 150⟩, ⟨[99, 99, 99, 99], 2, 400⟩] (by decide) (by decide)
  rw [h]
  rfl

/-- Claim C8: for every descriptor whose id fits the 2-byte field it is
parsed from, the output file name is the spec's identifier — tag bytes
mapped printably with placeholder substitution, followed by exactly 4
lowercase hex digits of the id — plus the fixed `.bin` extension. -/
theorem c8_identifier_derivation (tag : List Nat) (idv offset : Nat)
    (h : idv < 65536) :
    resource_filename ⟨tag, idv, offset⟩ = spec_identifier tag idv ++ ".bin" := by
  simp only [resource_filename]
  rw [pyHexPad4_eq_digits idv h]
  rfl

/-- Witness for C8, the spec's example: tag bytes 0x74 0x53 0x01 0x52
with id 0x0002 give identifier tS?R0002. -/
theorem c8_identifier_derivation_witness :
    resource_filename ⟨[116, 83, 1, 82], 2, 88⟩ = "tS?R0002.bin" := by
  have h := c8_identifier_derivation [116, 83, 1, 82] 2 88 (by decide)
  rw [h]
  rfl

end Prc2Bin
